import Mathlib

/-!
Verification of the panic-safe concurrent task execution core of the
`go-lab` repository: the worker pool with per-job panic recovery
(`examples/02-intermediate/panic-handling/after`) and the HTTP
request-isolation middleware (`withPanicRecovery` / `safeGo` in the
panic-handling server example).

The Go source is shallowly embedded:
* pure per-job processing (`processJob`, `processJobWithRecovery`) becomes
  Lean functions returning explicit sum-typed outcomes;
* the concurrent pool (`Start`/`worker`/`Submit`/`Close`/`Wait`) becomes a
  small-step transition relation `Step` on an explicit `PoolState`, with
  Go `select` nondeterminism modelled as nondeterministic choice between
  enabled transitions;
* the middleware's deferred recovery block becomes a function from the
  wrapped handler's outcome to the ordered list of side effects the
  middleware performs (callback call, header/status/body writes, re-raise).
-/

namespace GoLab

/-! ## Jobs and job results (worker pool data model) -/

/-- Embeds `type Job struct { ID int; Data string }`. -/
structure Job where
  ID : Int
  Data : String
deriving DecidableEq, Repr

/-- Embeds `type JobResult struct { Job Job; Err error; IsPanic bool; PanicInfo string }`.
The Go `error` field is embedded as `Option String` (nil error = `none`,
non-nil error = `some message`). -/
structure JobResult where
  job : Job
  Err : Option String
  IsPanic : Bool
  PanicInfo : String
deriving DecidableEq, Repr

/-- Outcome of one invocation of the raw job body: either it returns a
`JobResult` or it terminates abnormally with a string panic value. -/
inductive JobStep where
  | returns (r : JobResult)
  | panics (msg : String)
deriving DecidableEq, Repr

/-- The panic message `fmt.Sprintf("Worker %d panicked on job %d", workerID, job.ID)`. -/
def panicMsg (workerID : Nat) (job : Job) : String :=
  "Worker " ++ toString workerID ++ " panicked on job " ++ toString job.ID

/-- The application-error message `fmt.Errorf("worker %d failed to process job %d", ...)`. -/
def errMsg (workerID : Nat) (job : Job) : String :=
  "worker " ++ toString workerID ++ " failed to process job " ++ toString job.ID

/-- Embeds `func (wp *WorkerPool) processJob(workerID int, job Job) JobResult`:
panics (abnormal termination) when `job.Data == "panic"`, returns an
application error when `job.Data == "error"`, otherwise succeeds.
The `log.Printf` and `time.Sleep` side effects are immaterial to the
result and are not modelled. -/
def processJob (workerID : Nat) (job : Job) : JobStep :=
  if job.Data = "panic" then
    .panics (panicMsg workerID job)
  else if job.Data = "error" then
    .returns { job := job, Err := some (errMsg workerID job), IsPanic := false, PanicInfo := "" }
  else
    .returns { job := job, Err := none, IsPanic := false, PanicInfo := "" }

/-- Embeds `processJobWithRecovery`: runs `processJob`; a normal return is
passed through unchanged, and a panic `r` is recovered into
`JobResult{Job: job, IsPanic: true, PanicInfo: fmt.Sprintf("%v", r),
Err: fmt.Errorf("panic recovered: %v", r)}`. -/
def processJobWithRecovery (workerID : Nat) (job : Job) : JobResult :=
  match processJob workerID job with
  | .returns r => r
  | .panics msg =>
      { job := job, IsPanic := true, PanicInfo := msg, Err := some ("panic recovered: " ++ msg) }

/-- The panic-handler invocations `wp.panicHandler(r, workerID, job)` that one
run of `processJobWithRecovery` performs: exactly one call (with the
recovered value, the worker id and the job) when the job body panics,
none otherwise. -/
def handlerEvents (workerID : Nat) (job : Job) : List (String × Nat × Job) :=
  match processJob workerID job with
  | .returns _ => []
  | .panics msg => [(msg, workerID, job)]

/-! ## The worker pool as a small-step transition system

`Start` spawns workers that loop on
`select { case <-ctx.Done(): return; case job, ok := <-wp.jobs: ... }`.
A state records the job queue (the `jobs` channel content, capacity 100),
the list of all jobs submitted so far, whether `Close` was called
(channel closed), whether the context was cancelled, the per-worker
statuses, the results published so far, and the panic-handler calls so
far.  Go `select` chooses pseudo-randomly among ready branches, so a
worker facing both a closed/ready channel and a cancelled context may
take either branch; the `Step` relation reflects exactly that latitude. -/

/-- Status of one worker goroutine. -/
inductive WStatus where
  | idle
  | busy (job : Job)
  | exited
deriving DecidableEq, Repr

/-- Global state of one pool run. -/
structure PoolState where
  queue : List Job
  submitted : List Job
  closed : Bool
  cancelled : Bool
  workers : List WStatus
  results : List JobResult
  handlerCalls : List (String × Nat × Job)
deriving DecidableEq, Repr

/-- The jobs currently being executed by busy workers. -/
def busyJobs (l : List WStatus) : List Job :=
  l.filterMap fun st => match st with
    | .busy j => some j
    | _ => none

/-- Every worker has exited (this is exactly the condition under which
`Wait`, i.e. `wp.wg.Wait()`, returns). -/
def allExited (s : PoolState) : Prop :=
  ∀ st ∈ s.workers, st = WStatus.exited

instance (s : PoolState) : Decidable (allExited s) :=
  inferInstanceAs (Decidable (∀ st ∈ s.workers, st = WStatus.exited))

/-- State immediately after `NewWorkerPool` + `Start(ctx, results)` with `W`
spawned workers: empty queue, channel open, context live, all workers in
their select loop. -/
def startState (W : Nat) : PoolState :=
  { queue := [], submitted := [], closed := false, cancelled := false,
    workers := List.replicate W .idle, results := [], handlerCalls := [] }

/-- One interleaving step of the pool and its clients.

* `submit`: `wp.Submit(job)` on an open, non-full channel (`make(chan Job, 100)`).
* `close`: `wp.Close()`, i.e. `close(wp.jobs)`; requires the channel open
  (closing a closed channel panics in Go).
* `cancel`: the context's cancellation fires.
* `dequeue`: an idle worker's select takes the `jobs` branch and receives
  the head of the queue.  Go select permits this even when the context is
  already cancelled, as long as a job is available.
* `finish`: a busy worker completes `processJobWithRecovery` and publishes
  the result on the results channel (modelled as unbounded, as the tests
  size it to the workload).
* `exitCancel`: an idle worker's select takes the `ctx.Done()` branch.
* `exitClose`: an idle worker receives from the closed, drained channel
  (`ok == false`) and returns. -/
inductive Step : PoolState → PoolState → Prop where
  | submit (s : PoolState) (j : Job) (hop : s.closed = false)
      (hcap : s.queue.length < 100) :
      Step s { s with queue := s.queue ++ [j], submitted := s.submitted ++ [j] }
  | close (s : PoolState) (hop : s.closed = false) :
      Step s { s with closed := true }
  | cancel (s : PoolState) :
      Step s { s with cancelled := true }
  | dequeue (s : PoolState) (w : Nat) (j : Job) (rest : List Job)
      (hw : s.workers[w]? = some .idle) (hq : s.queue = j :: rest) :
      Step s { s with queue := rest, workers := s.workers.set w (.busy j) }
  | finish (s : PoolState) (w : Nat) (j : Job)
      (hw : s.workers[w]? = some (.busy j)) :
      Step s { s with workers := s.workers.set w .idle,
                      results := s.results ++ [processJobWithRecovery w j],
                      handlerCalls := s.handlerCalls ++ handlerEvents w j }
  | exitCancel (s : PoolState) (w : Nat)
      (hw : s.workers[w]? = some .idle) (hc : s.cancelled = true) :
      Step s { s with workers := s.workers.set w .exited }
  | exitClose (s : PoolState) (w : Nat)
      (hw : s.workers[w]? = some .idle) (hcl : s.closed = true)
      (hq : s.queue = []) :
      Step s { s with workers := s.workers.set w .exited }

/-- Reachability from the started pool with `W` workers. -/
def Reachable (W : Nat) (s : PoolState) : Prop :=
  Relation.ReflTransGen Step (startState W) s

/-! ## Submit on a closed channel (Go channel-send semantics) -/

/-- Possible outcomes of `wp.Submit(job)`, i.e. of the channel send
`wp.jobs <- job` under Go semantics. -/
inductive SubmitOutcome where
  | enqueued (s : PoolState)
  | blocked
  | panicked (msg : String)
deriving DecidableEq, Repr

/-- Embeds `func (wp *WorkerPool) Submit(job Job) { wp.jobs <- job }` with
Go channel-send semantics: sending on a closed channel panics with
"send on closed channel"; sending on a full open channel blocks; otherwise
the job is enqueued.  `Submit` returns nothing in Go — in particular it
has no error return path. -/
def Submit (s : PoolState) (j : Job) : SubmitOutcome :=
  if s.closed then .panicked "send on closed channel"
  else if s.queue.length < 100 then
    .enqueued { s with queue := s.queue ++ [j], submitted := s.submitted ++ [j] }
  else .blocked

/-! ## Pool construction (`NewWorkerPool` / `Start` spawn count) -/

/-- Embeds `type WorkerPool struct` construction-relevant data: the worker
count is a Go `int` (so possibly zero or negative), and after
`NewWorkerPool` a panic handler is always installed (the default one if
the caller passed `nil`). -/
structure WorkerPool where
  numWorkers : Int
  hasPanicHandler : Bool
deriving DecidableEq, Repr

/-- Embeds `func NewWorkerPool(numWorkers int, panicHandler PanicHandler)`:
stores `numWorkers` unchecked (no validation whatsoever) and installs
`defaultPanicHandler` when `panicHandler == nil`. -/
def NewWorkerPool (numWorkers : Int) (_handlerProvided : Bool) : WorkerPool :=
  { numWorkers := numWorkers, hasPanicHandler := true }

/-- Number of workers actually spawned by
`for i := 0; i < wp.numWorkers; i++ { wp.wg.Add(1); go wp.worker(...) }`:
`numWorkers` when nonnegative, `0` otherwise. -/
def startSpawnCount (wp : WorkerPool) : Nat :=
  wp.numWorkers.toNat

/-! ## HTTP request-isolation middleware (`withPanicRecovery`, `safeGo`)

Embedding of the panic-handling server example: Go panic values
(`interface\x7b\x7d` in `recover()`) are either non-error values (strings in this
codebase) or error values; `errors.Is(err, http.ErrAbortHandler)` walks
the `Unwrap` chain comparing against the sentinel. -/

/-- Go error values as they can appear in this codebase: the sentinel
`http.ErrAbortHandler`, some other leaf error, or a wrapping error built
with `fmt.Errorf("...: %w", inner)`. -/
inductive GoErr where
  | abortHandler
  | errorString (msg : String)
  | wrapf (msg : String) (inner : GoErr)
deriving DecidableEq, Repr

/-- Embeds `errors.Is(err, http.ErrAbortHandler)`: direct identity with the
sentinel, or a match somewhere down the `Unwrap` chain. -/
def errIsAbort : GoErr → Bool
  | .abortHandler => true
  | .errorString _ => false
  | .wrapf _ inner => errIsAbort inner

/-- A recovered panic value (`rec := recover()`): either a non-error value
(a string, as in `panic("intentional panic in handler")`) or an error
value (as in `panic(http.ErrAbortHandler)`). -/
inductive PanicVal where
  | str (s : String)
  | err (e : GoErr)
deriving DecidableEq, Repr

/-- Embeds the middleware's sentinel test
`if err, ok := rec.(error); ok && errors.Is(err, http.ErrAbortHandler)`:
only error values can match, via chain-aware comparison. -/
def isSentinel : PanicVal → Bool
  | .str _ => false
  | .err e => errIsAbort e

/-- Outcome of running the wrapped handler (or the function passed to a
safe-launch helper): normal completion, or a panic with value `v`. -/
inductive HandlerOutcome where
  | normal
  | panics (v : PanicVal)
deriving DecidableEq, Repr

/-- Side effects the middleware's deferred recovery block can perform, in
order: a call `s.panicHandler(rec, r)`, the `Content-Type` header write,
the `WriteHeader` status write, the JSON body write, and a re-panic
`panic(rec)`. -/
inductive MWEvent where
  | callback (v : PanicVal) (reqId : Nat)
  | setContentType (ct : String)
  | writeStatus (code : Nat)
  | writeBody (body : String)
  | reraise (v : PanicVal)
deriving DecidableEq, Repr

/-- The JSON body `json.NewEncoder(w).Encode(ErrorResponse{Error: "Internal
Server Error", Status: "error"})` produces (Go's encoder appends a
newline).  A fixed constant: it does not mention the recovered value. -/
def errorResponseBody : String :=
  "\x7b\"error\":\"Internal Server Error\",\"status\":\"error\"\x7d\n"

/-- Embeds the deferred recovery block of
`func (s *Server) withPanicRecovery(handler http.HandlerFunc)`: given the
wrapped handler's outcome on a request, the ordered list of side effects
the middleware itself performs.  Normal completion: none (the middleware
is transparent).  Panic with the sentinel (or an error wrapping it):
immediate re-panic with the identical value, nothing else.  Any other
panic: panic-handler callback with the recovered value and the request,
then Content-Type header, status 500, and the fixed JSON error body. -/
def withPanicRecovery (h : HandlerOutcome) (reqId : Nat) : List MWEvent :=
  match h with
  | .normal => []
  | .panics v =>
      if isSentinel v then [.reraise v]
      else [.callback v reqId, .setContentType "application/json",
            .writeStatus 500, .writeBody errorResponseBody]

/-! ## The two safe-launch helpers

The repository holds two distinct `SafeGo`-style helpers: `SafeGo` in the
worker-pool example (no sentinel check at all) and `safeGo` in the
panic-handling server example (with the sentinel check). -/

/-- Side effects a safe-launch helper's deferred recovery block can
perform: a call to the custom handler, the default `log.Printf`, or a
re-panic. -/
inductive SGEvent where
  | callback (v : PanicVal)
  | logDefault (v : PanicVal)
  | reraise (v : PanicVal)
deriving DecidableEq, Repr

/-- Embeds `func SafeGo(fn func(), panicHandler func(interface\x7b\x7d))` from the
worker-pool example: every recovered panic value — with no sentinel test —
is passed to the custom handler when one was given, else logged. -/
def SafeGo (h : HandlerOutcome) (hasHandler : Bool) : List SGEvent :=
  match h with
  | .normal => []
  | .panics v => if hasHandler then [.callback v] else [.logDefault v]

/-- Embeds `func safeGo(fn func(), panicHandler func(interface\x7b\x7d))` from the
panic-handling server example: the sentinel (possibly wrapped) is
re-raised; any other recovered value goes to the custom handler when one
was given, else to the default log. -/
def safeGo (h : HandlerOutcome) (hasHandler : Bool) : List SGEvent :=
  match h with
  | .normal => []
  | .panics v =>
      if isSentinel v then [.reraise v]
      else if hasHandler then [.callback v] else [.logDefault v]

/-! ## The pool invariant

An inductive invariant of `Step`, established at `startState` and
preserved by every transition.  `acc` is the accounting ledger: published
results, in-flight jobs and queued jobs together are exactly the
submitted jobs (as a multiset).  `noExit` says no worker exits before
`Close` or cancellation; `drain` says once every worker of a nonempty
pool has exited without cancellation, the queue is empty; `handlerJobs`
matches panic-handler calls one-to-one with published panic results;
`resultsOk` says every published result is a `processJobWithRecovery`
output for its own job. -/

structure Inv (W : Nat) (s : PoolState) : Prop where
  wlen : s.workers.length = W
  acc : (↑(s.results.map JobResult.job) + ↑(busyJobs s.workers) + ↑s.queue : Multiset Job)
      = (↑s.submitted : Multiset Job)
  noExit : s.closed = false → s.cancelled = false → ∀ st ∈ s.workers, st ≠ WStatus.exited
  drain : s.workers ≠ [] → allExited s → s.cancelled = false → s.queue = []
  handlerJobs : s.handlerCalls.map (fun t => t.2.2)
      = (s.results.filter (fun r => r.IsPanic)).map JobResult.job
  resultsOk : ∀ r ∈ s.results, ∃ w, r = processJobWithRecovery w r.job

/-! ## The outcome-record invariant (C6) -/

/-- The record reports success: nil error and no intercepted panic. -/
def isSuccess (r : JobResult) : Prop := r.Err = none ∧ r.IsPanic = false

/-- The record reports an application-level error: non-nil error without
an intercepted panic. -/
def isAppError (r : JobResult) : Prop := r.Err ≠ none ∧ r.IsPanic = false

/-- The record reports an intercepted abnormal termination. -/
def isPanicOutcome (r : JobResult) : Prop := r.IsPanic = true

/-! ## Concrete executions

A drained run: one worker, two panicking jobs submitted, `Close`, both
jobs dequeued and processed, worker exits on the closed empty channel.
Mirrors the shape of `TestWorkerPool_MultiplePanics` scaled down. -/

/-- First panicking job of the concrete drained run. -/
def p1 : Job := { ID := 1, Data := "panic" }

/-- Second panicking job of the concrete drained run. -/
def p2 : Job := { ID := 2, Data := "panic" }

/-- Started pool with one worker. -/
def t0 : PoolState := startState 1

/-- After `Submit(p1)`. -/
def t1 : PoolState := { t0 with queue := t0.queue ++ [p1], submitted := t0.submitted ++ [p1] }

/-- After `Submit(p2)`. -/
def t2 : PoolState := { t1 with queue := t1.queue ++ [p2], submitted := t1.submitted ++ [p2] }

/-- After `Close()`. -/
def t3 : PoolState := { t2 with closed := true }

/-- Worker 0 dequeues `p1`. -/
def t4 : PoolState := { t3 with queue := [p2], workers := t3.workers.set 0 (WStatus.busy p1) }

/-- Worker 0 finishes `p1` and publishes its result. -/
def t5 : PoolState :=
  { t4 with workers := t4.workers.set 0 WStatus.idle,
            results := t4.results ++ [processJobWithRecovery 0 p1],
            handlerCalls := t4.handlerCalls ++ handlerEvents 0 p1 }

/-- Worker 0 dequeues `p2`. -/
def t6 : PoolState := { t5 with queue := [], workers := t5.workers.set 0 (WStatus.busy p2) }

/-- Worker 0 finishes `p2` and publishes its result. -/
def t7 : PoolState :=
  { t6 with workers := t6.workers.set 0 WStatus.idle,
            results := t6.results ++ [processJobWithRecovery 0 p2],
            handlerCalls := t6.handlerCalls ++ handlerEvents 0 p2 }

/-- Worker 0 receives from the closed, drained channel and exits;
`Wait` now returns. -/
def t8 : PoolState := { t7 with workers := t7.workers.set 0 WStatus.exited }

/-- A run in which cancellation fires while a job is still queued, and the
worker's select nevertheless takes the jobs branch afterwards. -/
def cJob : Job := { ID := 9, Data := "ok" }

/-- Started pool with one worker (cancellation run). -/
def u0 : PoolState := startState 1

/-- After `Submit(cJob)`. -/
def u1 : PoolState := { u0 with queue := u0.queue ++ [cJob], submitted := u0.submitted ++ [cJob] }

/-- Cancellation fires with `cJob` still unclaimed in the queue. -/
def u2 : PoolState := { u1 with cancelled := true }

/-- Worker 0's select chooses the jobs branch and dequeues `cJob` — Go
select may do so even though the context is already cancelled. -/
def u3 : PoolState := { u2 with queue := [], workers := u2.workers.set 0 (WStatus.busy cJob) }

/-- Worker 0 finishes `cJob` and publishes its result after cancellation. -/
def u4 : PoolState :=
  { u3 with workers := u3.workers.set 0 WStatus.idle,
            results := u3.results ++ [processJobWithRecovery 0 cJob],
            handlerCalls := u3.handlerCalls ++ handlerEvents 0 cJob }

/-- Worker 0 then observes cancellation and exits. -/
def uExit : PoolState := { u4 with workers := u4.workers.set 0 WStatus.exited }

/-- A pool state whose jobs channel has been closed (used against
`Submit`). -/
def closedPool : PoolState := { startState 1 with closed := true }

/-! ## Basic lemmas about job processing and worker lists -/

theorem processJobWithRecovery_job (workerID : Nat) (job : Job) :
    (processJobWithRecovery workerID job).job = job := by
  unfold processJobWithRecovery processJob
  split_ifs <;> rfl

theorem processJob_returns_not_panic {workerID : Nat} {job : Job} {r : JobResult}
    (h : processJob workerID job = .returns r) : r.IsPanic = false := by
  unfold processJob at h
  split at h
  · exact absurd h (by simp)
  · split at h <;> · injection h with h; subst h; rfl

theorem processJobWithRecovery_panic {workerID : Nat} {job : Job}
    (h : job.Data = "panic") :
    (processJobWithRecovery workerID job).IsPanic = true := by
  unfold processJobWithRecovery processJob
  rw [if_pos h]

theorem handlerEvents_map (workerID : Nat) (job : Job) :
    (handlerEvents workerID job).map (fun t => t.2.2)
      = (([processJobWithRecovery workerID job]).filter
          (fun r => r.IsPanic)).map JobResult.job := by
  unfold handlerEvents processJobWithRecovery
  cases hpj : processJob workerID job with
  | returns r => simp [List.filter_cons, processJob_returns_not_panic hpj]
  | panics msg => simp [List.filter_cons]

theorem busyJobs_append (a b : List WStatus) :
    busyJobs (a ++ b) = busyJobs a ++ busyJobs b :=
  List.filterMap_append a b _

theorem busyJobs_cons_idle (l : List WStatus) :
    busyJobs (WStatus.idle :: l) = busyJobs l := rfl

theorem busyJobs_cons_exited (l : List WStatus) :
    busyJobs (WStatus.exited :: l) = busyJobs l := rfl

theorem busyJobs_cons_busy (j : Job) (l : List WStatus) :
    busyJobs (WStatus.busy j :: l) = j :: busyJobs l := rfl

theorem list_decomp {α : Type} {l : List α} {w : Nat} {x : α} (h : l[w]? = some x) :
    l = l.take w ++ x :: l.drop (w + 1) := by
  obtain ⟨hlt, he⟩ := List.getElem?_eq_some.1 h
  rw [← he, List.getElem_cons_drop, List.take_append_drop]

theorem list_set_decomp {α : Type} {l : List α} {w : Nat} {x : α}
    (h : l[w]? = some x) (y : α) :
    l.set w y = l.take w ++ y :: l.drop (w + 1) := by
  obtain ⟨hlt, _⟩ := List.getElem?_eq_some.1 h
  exact List.set_eq_take_cons_drop y hlt

theorem inv_start (W : Nat) : Inv W (startState W) := by
  refine ⟨List.length_replicate W _, by simp [startState, busyJobs], ?_, ?_, rfl, by simp [startState]⟩
  · intro _ _ st hst
    rw [List.eq_of_mem_replicate hst]
    nofun
  · intro hne hall _
    exfalso
    obtain ⟨st, hst⟩ := List.exists_mem_of_ne_nil _ hne
    have h1 := List.eq_of_mem_replicate hst
    have h2 := hall st hst
    rw [h1] at h2
    exact WStatus.noConfusion h2

theorem inv_step {W : Nat} {s s' : PoolState} (h : Inv W s) (hs : Step s s') : Inv W s' := by
  cases hs with
  | submit j hop hcap =>
      refine ⟨h.wlen, ?_, ?_, ?_, h.handlerJobs, h.resultsOk⟩
      · show (↑(s.results.map JobResult.job) + ↑(busyJobs s.workers)
            + ↑(s.queue ++ [j]) : Multiset Job) = ↑(s.submitted ++ [j])
        rw [← Multiset.coe_add, ← Multiset.coe_add, ← h.acc]
        abel
      · exact fun hc hcan => h.noExit hc hcan
      · intro hne hall hcan
        exfalso
        obtain ⟨st, hst⟩ := List.exists_mem_of_ne_nil _ hne
        exact (h.noExit hop hcan st hst) (hall st hst)
  | close hop =>
      refine ⟨h.wlen, h.acc, ?_, ?_, h.handlerJobs, h.resultsOk⟩
      · intro hc
        exact absurd hc (by simp)
      · exact h.drain
  | cancel =>
      refine ⟨h.wlen, h.acc, ?_, ?_, h.handlerJobs, h.resultsOk⟩
      · intro _ hcan
        exact absurd hcan (by simp)
      · intro _ _ hcan
        exact absurd hcan (by simp)
  | dequeue w j rest hw hq =>
      have hd := list_decomp hw
      have hset := list_set_decomp hw (WStatus.busy j)
      refine ⟨by rw [List.length_set]; exact h.wlen, ?_, ?_, ?_, h.handlerJobs, h.resultsOk⟩
      · show (↑(s.results.map JobResult.job) + ↑(busyJobs (s.workers.set w (.busy j)))
            + ↑rest : Multiset Job) = ↑s.submitted
        have hacc := h.acc
        rw [hq, hd, busyJobs_append, busyJobs_cons_idle] at hacc
        rw [hset, busyJobs_append, busyJobs_cons_busy, ← hacc]
        simp only [← Multiset.coe_add, ← Multiset.cons_coe, ← Multiset.singleton_add]
        abel
      · intro hcl hcan st hst
        rw [hset] at hst
        rcases List.mem_append.1 hst with h1 | h2
        · exact h.noExit hcl hcan st (List.mem_of_mem_take h1)
        · rcases List.mem_cons.1 h2 with rfl | h3
          · nofun
          · exact h.noExit hcl hcan st (List.mem_of_mem_drop h3)
      · intro hne hall hcan
        exfalso
        have hmem : WStatus.busy j ∈ s.workers.set w (.busy j) := by
          rw [hset]
          exact List.mem_append_right _ (List.mem_cons_self _ _)
        exact WStatus.noConfusion (hall _ hmem)
  | finish w j hw =>
      have hd := list_decomp hw
      have hset := list_set_decomp hw WStatus.idle
      refine ⟨by rw [List.length_set]; exact h.wlen, ?_, ?_, ?_, ?_, ?_⟩
      · show (↑((s.results ++ [processJobWithRecovery w j]).map JobResult.job)
            + ↑(busyJobs (s.workers.set w .idle)) + ↑s.queue : Multiset Job) = ↑s.submitted
        have hacc := h.acc
        rw [hd, busyJobs_append, busyJobs_cons_busy] at hacc
        rw [hset, busyJobs_append, busyJobs_cons_idle, List.map_append, ← hacc]
        simp only [List.map_cons, List.map_nil, processJobWithRecovery_job,
          ← Multiset.coe_add, ← Multiset.cons_coe, ← Multiset.singleton_add]
        abel
      · intro hcl hcan st hst
        rw [hset] at hst
        rcases List.mem_append.1 hst with h1 | h2
        · exact h.noExit hcl hcan st (List.mem_of_mem_take h1)
        · rcases List.mem_cons.1 h2 with rfl | h3
          · nofun
          · exact h.noExit hcl hcan st (List.mem_of_mem_drop h3)
      · intro hne hall hcan
        exfalso
        have hmem : WStatus.idle ∈ s.workers.set w .idle := by
          rw [hset]
          exact List.mem_append_right _ (List.mem_cons_self _ _)
        exact WStatus.noConfusion (hall _ hmem)
      · show (s.handlerCalls ++ handlerEvents w j).map (fun t => t.2.2)
            = ((s.results ++ [processJobWithRecovery w j]).filter
                (fun r => r.IsPanic)).map JobResult.job
        rw [List.map_append, List.filter_append, List.map_append,
          h.handlerJobs, handlerEvents_map]
      · intro r hr
        rcases List.mem_append.1 hr with h1 | h2
        · exact h.resultsOk r h1
        · rcases List.mem_cons.1 h2 with rfl | h3
          · exact ⟨w, by rw [processJobWithRecovery_job]⟩
          · exact absurd h3 (List.not_mem_nil r)
  | exitCancel w hw hc =>
      have hd := list_decomp hw
      have hset := list_set_decomp hw WStatus.exited
      refine ⟨by rw [List.length_set]; exact h.wlen, ?_, ?_, ?_, h.handlerJobs, h.resultsOk⟩
      · show (↑(s.results.map JobResult.job) + ↑(busyJobs (s.workers.set w .exited))
            + ↑s.queue : Multiset Job) = ↑s.submitted
        have hacc := h.acc
        rw [hd, busyJobs_append, busyJobs_cons_idle] at hacc
        rw [hset, busyJobs_append, busyJobs_cons_exited]
        exact hacc
      · intro _ hcan
        exact Bool.noConfusion (hc.symm.trans hcan)
      · intro _ _ hcan
        exact Bool.noConfusion (hc.symm.trans hcan)
  | exitClose w hw hcl hq =>
      have hd := list_decomp hw
      have hset := list_set_decomp hw WStatus.exited
      refine ⟨by rw [List.length_set]; exact h.wlen, ?_, ?_, ?_, h.handlerJobs, h.resultsOk⟩
      · show (↑(s.results.map JobResult.job) + ↑(busyJobs (s.workers.set w .exited))
            + ↑s.queue : Multiset Job) = ↑s.submitted
        have hacc := h.acc
        rw [hd, busyJobs_append, busyJobs_cons_idle] at hacc
        rw [hset, busyJobs_append, busyJobs_cons_exited]
        exact hacc
      · intro hcl'
        exact absurd (hcl.symm.trans hcl') (by simp)
      · intro _ _ _
        exact hq

theorem steps_inv {W : Nat} {s : PoolState}
    (h : Relation.ReflTransGen Step (startState W) s) : Inv W s := by
  induction h with
  | refl => exact inv_start W
  | tail _ hstep ih => exact inv_step ih hstep

theorem reachable_inv {W : Nat} {s : PoolState} (h : Reachable W s) : Inv W s :=
  steps_inv h

/-! ## Consequences at a drained state -/

theorem allExited_busyJobs {s : PoolState} (h : allExited s) :
    busyJobs s.workers = [] := by
  unfold busyJobs
  rw [List.filterMap_eq_nil_iff]
  intro st hst
  rw [h st hst]

theorem workers_ne_nil {W : Nat} {s : PoolState} (hW : 1 ≤ W) (hinv : Inv W s) :
    s.workers ≠ [] := by
  intro hnil
  have := hinv.wlen
  rw [hnil] at this
  simp at this
  omega

/-- At any reachable state where the pool was closed, cancellation never
fired and every worker has exited, the queue is drained and the published
results correspond one-to-one (as a multiset) with the submitted jobs. -/
theorem drained_state {W : Nat} {s : PoolState} (hW : 1 ≤ W) (hr : Reachable W s)
    (hcl : s.closed = true) (hcan : s.cancelled = false) (hall : allExited s) :
    s.queue = [] ∧ (s.results.map JobResult.job).Perm s.submitted := by
  have hinv := reachable_inv hr
  have hq : s.queue = [] := hinv.drain (workers_ne_nil hW hinv) hall hcan
  have hacc := hinv.acc
  rw [hq, allExited_busyJobs hall] at hacc
  simp only [Multiset.coe_nil, add_zero] at hacc
  exact ⟨hq, Multiset.coe_eq_coe.1 hacc⟩

/-- C1 (total accounting): for every sequence of jobs submitted to a
started worker pool (at least one worker, per the pool data model) that
is then closed and waited on (`allExited` is exactly the condition under
which `Wait` returns) with no cancellation, the published `JobResult`
records correspond one-to-one with the submitted jobs: exactly
`s.submitted.length` of them, one per submitted job, no more and no
fewer. -/
theorem pool_total_accounting {W : Nat} {s : PoolState} (hW : 1 ≤ W)
    (hr : Reachable W s) (hclosed : s.closed = true)
    (hnocancel : s.cancelled = false) (hwait : allExited s) :
    s.results.length = s.submitted.length
    ∧ (s.results.map JobResult.job).Perm s.submitted := by
  obtain ⟨-, hperm⟩ := drained_state hW hr hclosed hnocancel hwait
  refine ⟨?_, hperm⟩
  have := hperm.length_eq
  rwa [List.length_map] at this

/-- C7 (drain semantics): after `Close` and absent cancellation, when
`Wait` returns (every worker has exited), the queue has been fully
drained — every job submitted before `Close` has been dequeued and
processed into a published result. -/
theorem pool_drain_semantics {W : Nat} {s : PoolState} (hW : 1 ≤ W)
    (hr : Reachable W s) (hclosed : s.closed = true)
    (hnocancel : s.cancelled = false) (hwait : allExited s) :
    s.queue = [] ∧ busyJobs s.workers = []
    ∧ (s.results.map JobResult.job).Perm s.submitted := by
  obtain ⟨hq, hperm⟩ := drained_state hW hr hclosed hnocancel hwait
  exact ⟨hq, allExited_busyJobs hwait, hperm⟩

/-- C2 (fault isolation under multiple panics): M jobs that each trigger
a panic, on a pool of W workers with W < M, produce exactly M results,
all with `IsPanic = true`, and the panic-handler callback fires exactly M
times — workers keep processing after each interception. -/
theorem pool_multi_panic {W M : Nat} {s : PoolState} (hW : 1 ≤ W) (hWM : W < M)
    (hr : Reachable W s) (hclosed : s.closed = true)
    (hnocancel : s.cancelled = false) (hwait : allExited s)
    (hM : s.submitted.length = M)
    (hpanic : ∀ j ∈ s.submitted, j.Data = "panic") :
    s.results.length = M ∧ (∀ r ∈ s.results, r.IsPanic = true)
    ∧ s.handlerCalls.length = M := by
  have hinv := reachable_inv hr
  obtain ⟨-, hperm⟩ := drained_state hW hr hclosed hnocancel hwait
  have hlen : s.results.length = M := by
    have := hperm.length_eq
    rw [List.length_map] at this
    omega
  have hallp : ∀ r ∈ s.results, r.IsPanic = true := by
    intro r hrmem
    obtain ⟨w, hre⟩ := hinv.resultsOk r hrmem
    have hjob : r.job ∈ s.submitted :=
      hperm.subset (List.mem_map_of_mem JobResult.job hrmem)
    rw [hre]
    exact processJobWithRecovery_panic (hpanic r.job hjob)
  refine ⟨hlen, hallp, ?_⟩
  have hh := hinv.handlerJobs
  have : s.handlerCalls.length = (s.results.filter (fun r => r.IsPanic)).length := by
    have := congrArg List.length hh
    rwa [List.length_map, List.length_map] at this
  rw [this, List.filter_eq_self.2 hallp, hlen]

theorem pjwr_eq_panic {w : Nat} {j : Job} (h : j.Data = "panic") :
    processJobWithRecovery w j
      = { job := j, Err := some ("panic recovered: " ++ panicMsg w j),
          IsPanic := true, PanicInfo := panicMsg w j } := by
  unfold processJobWithRecovery processJob
  rw [if_pos h]

theorem pjwr_eq_error {w : Nat} {j : Job} (h1 : ¬ j.Data = "panic")
    (h2 : j.Data = "error") :
    processJobWithRecovery w j
      = { job := j, Err := some (errMsg w j), IsPanic := false, PanicInfo := "" } := by
  unfold processJobWithRecovery processJob
  rw [if_neg h1, if_pos h2]

theorem pjwr_eq_ok {w : Nat} {j : Job} (h1 : ¬ j.Data = "panic")
    (h2 : ¬ j.Data = "error") :
    processJobWithRecovery w j
      = { job := j, Err := none, IsPanic := false, PanicInfo := "" } := by
  unfold processJobWithRecovery processJob
  rw [if_neg h1, if_neg h2]

theorem panicMsg_ne_empty (w : Nat) (j : Job) : panicMsg w j ≠ "" := by
  intro h
  have hl := congrArg String.length h
  unfold panicMsg at hl
  rw [String.length_append, String.length_append, String.length_append] at hl
  have h1 : ("Worker ").length = 7 := rfl
  have h2 : (" panicked on job ").length = 17 := rfl
  have h3 : ("").length = 0 := rfl
  rw [h1, h2, h3] at hl
  omega

/-- C6 (outcome-record invariant): every `JobResult` the pool publishes
satisfies: exactly one of {success, application error, intercepted
panic} holds; `PanicInfo` is populated (non-empty) if and only if
`IsPanic` is true; and `Err` is non-nil if and only if the job returned
an application error or a panic was intercepted. -/
theorem jobresult_invariant {W : Nat} {s : PoolState} (hr : Reachable W s)
    (r : JobResult) (hmem : r ∈ s.results) :
    ((isSuccess r ∧ ¬ isAppError r ∧ ¬ isPanicOutcome r)
      ∨ (¬ isSuccess r ∧ isAppError r ∧ ¬ isPanicOutcome r)
      ∨ (¬ isSuccess r ∧ ¬ isAppError r ∧ isPanicOutcome r))
    ∧ (r.PanicInfo ≠ "" ↔ r.IsPanic = true)
    ∧ (r.Err ≠ none ↔ (isAppError r ∨ isPanicOutcome r)) := by
  obtain ⟨w, hre⟩ := (reachable_inv hr).resultsOk r hmem
  generalize hj : r.job = j at hre
  subst hre
  by_cases hp : j.Data = "panic"
  · rw [pjwr_eq_panic hp]
    refine ⟨Or.inr (Or.inr ?_), ?_, ?_⟩
    · simp [isSuccess, isAppError, isPanicOutcome]
    · simpa using panicMsg_ne_empty w j
    · simp [isAppError, isPanicOutcome]
  · by_cases he : j.Data = "error"
    · rw [pjwr_eq_error hp he]
      refine ⟨Or.inr (Or.inl ?_), ?_, ?_⟩
      · simp [isSuccess, isAppError, isPanicOutcome]
      · simp
      · simp [isAppError, isPanicOutcome]
    · rw [pjwr_eq_ok hp he]
      refine ⟨Or.inl ?_, ?_, ?_⟩
      · simp [isSuccess, isAppError, isPanicOutcome]
      · simp
      · simp [isAppError, isPanicOutcome]

/-! ## Middleware claims (C3, C4) -/

/-- C3 (sentinel re-raise): when the wrapped handler panics with the
designated sentinel `http.ErrAbortHandler` — or with an error wrapping it
under `errors.Is` chain comparison, which is exactly `isSentinel v =
true` — the middleware performs a single side effect: re-panicking with
the identical recovered value.  In particular it writes no error
response, never invokes the panic-handler callback, and the re-raise
precedes any other side effect (there is none). -/
theorem sentinel_reraise {v : PanicVal} (reqId : Nat)
    (hv : isSentinel v = true) :
    withPanicRecovery (.panics v) reqId = [MWEvent.reraise v] := by
  simp [withPanicRecovery, hv]

/-- C4 (non-sentinel conversion without diagnostic leak): when the wrapped
handler panics with any non-sentinel value, the middleware's side effects
are exactly: one panic-handler callback carrying the recovered value and
the originating request, then the `Content-Type` header, then status 500,
then the fixed JSON error body `errorResponseBody` — a constant that does
not depend on the recovered value, so the raw panic value never reaches
the response. -/
theorem nonsentinel_conversion {v : PanicVal} (reqId : Nat)
    (hv : isSentinel v = false) :
    withPanicRecovery (.panics v) reqId
      = [MWEvent.callback v reqId, MWEvent.setContentType "application/json",
         MWEvent.writeStatus 500, MWEvent.writeBody errorResponseBody] := by
  simp [withPanicRecovery, hv]

/-! ## Sentinel handling across the isolation-boundary manifestations (C5) -/

/-- C5 counterexample: the worker-pool example's `SafeGo` does convert the
designated sentinel.  Launching a function that panics with
`http.ErrAbortHandler` under `SafeGo` with a custom handler passes the
sentinel to that handler and re-raises nothing — refuting the claim that
every manifestation of the isolation boundary re-raises the sentinel and
never passes it to the callback. -/
theorem pool_safego_sentinel_counterexample :
    isSentinel (PanicVal.err GoErr.abortHandler) = true
    ∧ SafeGo (.panics (.err .abortHandler)) true
        = [SGEvent.callback (.err .abortHandler)]
    ∧ SGEvent.reraise (.err .abortHandler)
        ∉ SafeGo (.panics (.err .abortHandler)) true := by
  refine ⟨rfl, rfl, ?_⟩
  decide

/-- C5 amended: only the HTTP-layer manifestations of the isolation
boundary re-raise the sentinel.  The server example's `safeGo` (and the
middleware `withPanicRecovery`) re-raise a sentinel panic value
identically; the worker-pool example's `SafeGo` performs no sentinel
check and passes every recovered value — the sentinel included — to the
custom handler (or the default log), re-raising nothing.  (The pool's
`processJobWithRecovery` likewise has no sentinel check, though its fixed
job body only ever panics with plain strings, never the sentinel.) -/
theorem sentinel_handling_amended {v : PanicVal} (hv : isSentinel v = true) :
    (∀ hasHandler : Bool, safeGo (.panics v) hasHandler = [SGEvent.reraise v])
    ∧ (∀ reqId : Nat, withPanicRecovery (.panics v) reqId = [MWEvent.reraise v])
    ∧ SafeGo (.panics v) true = [SGEvent.callback v]
    ∧ SafeGo (.panics v) false = [SGEvent.logDefault v] := by
  refine ⟨?_, ?_, rfl, rfl⟩
  · intro hasHandler
    simp [safeGo, hv]
  · intro reqId
    simp [withPanicRecovery, hv]

/-! ## Worker count at construction (C9) -/

/-- C9 counterexample: `NewWorkerPool(0, nil)` constructs a pool whose
worker count is 0 — `NewWorkerPool` performs no validation, so the
claimed "count is at least 1" fails, and `Start` then spawns 0 workers. -/
theorem worker_count_counterexample :
    (NewWorkerPool 0 false).numWorkers = 0
    ∧ startSpawnCount (NewWorkerPool 0 false) = 0
    ∧ ¬ (1 ≤ (NewWorkerPool 0 false).numWorkers) := by
  refine ⟨rfl, rfl, ?_⟩
  decide

/-- C9 amended: the worker count is fixed at construction —
`NewWorkerPool` stores exactly the count it is given, unvalidated — and
`Start`'s loop spawns exactly that many workers when the count is
nonnegative (and none for a negative count); the code does not enforce
that the count is at least 1. -/
theorem worker_count_amended (n : Int) (handlerProvided : Bool) :
    (NewWorkerPool n handlerProvided).numWorkers = n
    ∧ startSpawnCount (NewWorkerPool n handlerProvided) = n.toNat
    ∧ (startState (startSpawnCount (NewWorkerPool n handlerProvided))).workers.length
        = n.toNat := by
  refine ⟨rfl, rfl, ?_⟩
  simp [startState, NewWorkerPool, startSpawnCount]

/-! ## Submit after Close (C10) -/

/-- C10 (implicit — Submit after Close): once `Close` has closed the jobs
channel, `Submit` is a send on a closed channel: under Go semantics it
panics with "send on closed channel" in the submitting goroutine.  It
does not enqueue the job (`Submit`'s outcome is not `enqueued`) and it
has no error-return path at all (`Submit` returns nothing in Go; the
embedding's only outcomes are `enqueued`, `blocked` and `panicked`). -/
theorem submit_after_close {s : PoolState} {j : Job} (h : s.closed = true) :
    Submit s j = .panicked "send on closed channel" := by
  unfold Submit
  rw [if_pos h]

/-! ## Cancellation semantics (C8) -/

theorem allExited_frozen {s s' : PoolState}
    (hsteps : Relation.ReflTransGen Step s s') (hall : allExited s) :
    allExited s' ∧ s'.results = s.results := by
  induction hsteps with
  | refl => exact ⟨hall, rfl⟩
  | tail _ hstep ih =>
      obtain ⟨hallb, hres⟩ := ih
      cases hstep with
      | submit j hop hcap => exact ⟨hallb, hres⟩
      | close hop => exact ⟨hallb, hres⟩
      | cancel => exact ⟨hallb, hres⟩
      | dequeue w j rest hw hq =>
          exact absurd (hallb _ (List.getElem?_mem hw)) (by nofun)
      | finish w j hw =>
          exact absurd (hallb _ (List.getElem?_mem hw)) (by nofun)
      | exitCancel w hw hc =>
          exact absurd (hallb _ (List.getElem?_mem hw)) (by nofun)
      | exitClose w hw hcl hq =>
          exact absurd (hallb _ (List.getElem?_mem hw)) (by nofun)

/-- C8 counterexample: the claim "any job still unclaimed in the queue at
cancellation is never processed and never produces a JobResult" is false.
In the reachable run `u0 → u1 → u2 → u3 → u4`, cancellation fires at the
step into `u2` while `cJob` sits unclaimed in the queue, yet the worker's
select subsequently takes the jobs branch (as Go select may, choosing
pseudo-randomly among ready cases) and `cJob` is processed, producing a
published `JobResult`. -/
theorem cancellation_counterexample :
    Relation.ReflTransGen Step (startState 1) u2
    ∧ Step u1 u2
    ∧ u2.cancelled = true
    ∧ u2.queue = [cJob]
    ∧ Relation.ReflTransGen Step u2 u4
    ∧ u4.results.map JobResult.job = [cJob] := by
  refine ⟨?_, Step.cancel u1, rfl, rfl, ?_, ?_⟩
  · exact .tail (.single (Step.submit u0 cJob rfl (by decide))) (Step.cancel u1)
  · exact .tail (.single (Step.dequeue u2 0 cJob [] (by decide) rfl))
      (Step.finish u3 0 cJob (by decide))
  · decide

/-- C8 amended: when cancellation fires, each idle worker may exit
immediately — the exit transition is enabled regardless of how many jobs
remain queued; and once every worker has exited, no further `JobResult`
is ever published, so a job still unclaimed when the workers have all
exited never produces a result.  However, a job still queued at the
moment cancellation fires is not necessarily dropped: a worker's select
may still take the jobs branch and process it (see the counterexample),
so "never processed" holds only from the point all workers have exited,
not from the instant of cancellation. -/
theorem cancellation_amended :
    (∀ (s : PoolState) (w : Nat), s.workers[w]? = some WStatus.idle →
      s.cancelled = true → Step s { s with workers := s.workers.set w .exited })
    ∧ (∀ s s' : PoolState, allExited s → Relation.ReflTransGen Step s s' →
        s'.results = s.results) :=
  ⟨fun s w hw hc => Step.exitCancel s w hw hc,
   fun _ _ hall hsteps => (allExited_frozen hsteps hall).2⟩

/-- Witness for the amended C8 theorem at concrete inputs: in `u2`
(cancelled, `cJob` still queued) worker 0 may exit at once, and from the
all-exited state `uExit` no transition sequence ever changes the results
list. -/
theorem cancellation_amended_witness :
    Step u2 { u2 with workers := u2.workers.set 0 WStatus.exited }
    ∧ uExit.results = uExit.results :=
  ⟨cancellation_amended.1 u2 0 (by decide) rfl,
   cancellation_amended.2 uExit uExit (by decide) .refl⟩

/-! ## The concrete drained run and the remaining witnesses -/

theorem reach_t8 : Reachable 1 t8 := by
  have h1 : Step t0 t1 := Step.submit t0 p1 rfl (by decide)
  have h2 : Step t1 t2 := Step.submit t1 p2 rfl (by decide)
  have h3 : Step t2 t3 := Step.close t2 rfl
  have h4 : Step t3 t4 := Step.dequeue t3 0 p1 [p2] (by decide) rfl
  have h5 : Step t4 t5 := Step.finish t4 0 p1 (by decide)
  have h6 : Step t5 t6 := Step.dequeue t5 0 p2 [] (by decide) rfl
  have h7 : Step t6 t7 := Step.finish t6 0 p2 (by decide)
  have h8 : Step t7 t8 := Step.exitClose t7 0 (by decide) rfl rfl
  exact .tail (.tail (.tail (.tail (.tail (.tail (.tail (.single h1) h2) h3) h4) h5) h6) h7) h8

/-- Witness for C1 at the concrete drained run `t8`. -/
theorem pool_total_accounting_witness :
    t8.results.length = t8.submitted.length
    ∧ (t8.results.map JobResult.job).Perm t8.submitted :=
  @pool_total_accounting 1 t8 (by decide) reach_t8 rfl rfl (by decide)

/-- Witness for C7 at the concrete drained run `t8`. -/
theorem pool_drain_semantics_witness :
    t8.queue = [] ∧ busyJobs t8.workers = []
    ∧ (t8.results.map JobResult.job).Perm t8.submitted :=
  @pool_drain_semantics 1 t8 (by decide) reach_t8 rfl rfl (by decide)

/-- Witness for C2 at the concrete drained run `t8` (M = 2 panicking jobs
on W = 1 worker). -/
theorem pool_multi_panic_witness :
    t8.results.length = 2 ∧ (∀ r ∈ t8.results, r.IsPanic = true)
    ∧ t8.handlerCalls.length = 2 :=
  @pool_multi_panic 1 2 t8 (by decide) (by decide) reach_t8 rfl rfl (by decide)
    (by decide) (by decide)

/-- Witness for C6 at the first result published in the concrete drained
run `t8`. -/
theorem jobresult_invariant_witness :
    ((isSuccess (processJobWithRecovery 0 p1)
        ∧ ¬ isAppError (processJobWithRecovery 0 p1)
        ∧ ¬ isPanicOutcome (processJobWithRecovery 0 p1))
      ∨ (¬ isSuccess (processJobWithRecovery 0 p1)
        ∧ isAppError (processJobWithRecovery 0 p1)
        ∧ ¬ isPanicOutcome (processJobWithRecovery 0 p1))
      ∨ (¬ isSuccess (processJobWithRecovery 0 p1)
        ∧ ¬ isAppError (processJobWithRecovery 0 p1)
        ∧ isPanicOutcome (processJobWithRecovery 0 p1)))
    ∧ ((processJobWithRecovery 0 p1).PanicInfo ≠ ""
        ↔ (processJobWithRecovery 0 p1).IsPanic = true)
    ∧ ((processJobWithRecovery 0 p1).Err ≠ none
        ↔ (isAppError (processJobWithRecovery 0 p1)
            ∨ isPanicOutcome (processJobWithRecovery 0 p1))) :=
  @jobresult_invariant 1 t8 reach_t8 (processJobWithRecovery 0 p1) (by decide)

/-- Witness for C3 at a wrapped sentinel: a handler panic with
`fmt.Errorf("...: %w", http.ErrAbortHandler)` is re-raised identically. -/
theorem sentinel_reraise_witness :
    isSentinel (PanicVal.err (GoErr.wrapf "request aborted" GoErr.abortHandler)) = true
    ∧ withPanicRecovery
        (.panics (.err (.wrapf "request aborted" .abortHandler))) 3
      = [MWEvent.reraise (.err (.wrapf "request aborted" .abortHandler))] :=
  ⟨rfl, sentinel_reraise 3 rfl⟩

/-- Witness for C4 at the concrete panic value of the `/panic` handler. -/
theorem nonsentinel_conversion_witness :
    isSentinel (PanicVal.str "intentional panic in handler") = false
    ∧ withPanicRecovery (.panics (.str "intentional panic in handler")) 7
      = [MWEvent.callback (.str "intentional panic in handler") 7,
         MWEvent.setContentType "application/json",
         MWEvent.writeStatus 500, MWEvent.writeBody errorResponseBody] :=
  ⟨rfl, nonsentinel_conversion 7 rfl⟩

/-- Witness for the amended C5 theorem at the sentinel itself. -/
theorem sentinel_handling_amended_witness :
    safeGo (.panics (.err .abortHandler)) false
      = [SGEvent.reraise (.err .abortHandler)]
    ∧ SafeGo (.panics (.err .abortHandler)) true
      = [SGEvent.callback (.err .abortHandler)] :=
  ⟨(@sentinel_handling_amended (.err .abortHandler) rfl).1 false,
   (@sentinel_handling_amended (.err .abortHandler) rfl).2.2.1⟩

/-- Witness for C10: submitting to the concrete closed pool panics with
"send on closed channel". -/
theorem submit_after_close_witness :
    closedPool.closed = true
    ∧ Submit closedPool cJob = .panicked "send on closed channel" :=
  ⟨rfl, @submit_after_close closedPool cJob rfl⟩

end GoLab
